import Mathlib

unseal Rat.add Rat.mul Rat.sub Rat.inv

/-!
Shallow embedding of the recommendation engine of `apps/recommendation.py`
(Swisstination backend), together with the router-side classification of
`apps/app/routers/recommendation_router.py`.  Item ids are strings (the
Python code normalises every id with `str(...)`), category ids are integers,
and scores are rationals (standing for the Python floats; every score the
code computes is a finite decimal, so rational arithmetic mirrors it).
-/

namespace SwissRec

abbrev ItemId := String
abbrev CatId := Int
abbrev Score := ℚ

/-- The model artifact `_pack` loaded by `joblib.load`: the item catalog
snapshot `items_df` (rows of destinasi_id, kategori_id), the set of raw item
ids seen at training time (`trainset._raw2inner_id_items`), the per-item
latent vectors `algo.qi`, the per-item biases `algo.bi`, the predictor
`algo.predict(user, item).est` and the global mean rating. -/
structure Model where
  dfItems : List (ItemId × CatId)
  knownIds : List ItemId
  qi : ItemId → List Score
  bi : ItemId → Score
  predictEst : String → ItemId → Score
  globalMean : Score

/-- The live `destinasi` table reachable through the supabase client:
either the client is not configured (`supabase is None`), or the query
raises, or the table contents are returned. -/
inductive LiveDb
  | notConfigured
  | failing
  | table (rows : List (ItemId × CatId))

/-- Process state: the loaded model artifact (`None` exactly when
`ML_MODEL_AVAILABLE` is false), the live destination table, and the live
interaction store (rows of user_id, destinasi_id) that the spec describes
as an external collaborator. -/
structure Env where
  model : Option Model
  liveDb : LiveDb
  liveRatings : List (String × ItemId)

/-- The module-level hook `fetch_latest_ratings`: in the source it is a
no-op that returns an empty DataFrame with columns
user_id, destinasi_id, rating — it never consults the live store. -/
def fetch_latest_ratings (_env : Env) : List (String × ItemId × Score) := []

/-- The module-level `df_ratings = fetch_latest_ratings()`, computed once
at import. -/
def df_ratings (env : Env) : List (String × ItemId × Score) :=
  fetch_latest_ratings env

/-- The interaction count `(df_ratings["user_id"].astype(str) == user_id).sum()`
computed inside `recommend`. -/
def n_inter (env : Env) (user : String) : Nat :=
  ((df_ratings env).filter (fun r => decide (r.1 = user))).length

/-- The set `taken` of already-rated items built inside `topn_for_user`
from `df_ratings`. -/
def takenItems (env : Env) (user : String) : List ItemId :=
  ((df_ratings env).filter (fun r => decide (r.1 = user))).map (fun r => r.2.1)

/-- Membership of a raw item id in the training set of a loaded model. -/
def knownIn (m : Model) (iid : ItemId) : Bool :=
  decide (iid ∈ m.knownIds)

/-- The utility `known_item`: false when the model is unavailable, else
membership in `trainset._raw2inner_id_items`. -/
def known_item (env : Env) (iid : ItemId) : Bool :=
  match env.model with
  | none => false
  | some m => knownIn m iid

/-- What the live `destinasi` query of `_candidates` yields: the table rows,
filtered by `in_("kategori_id", restrict_cats)` when a restriction is given. -/
def liveRows (rows : List (ItemId × CatId)) (restrict : Option (List CatId)) :
    List (ItemId × CatId) :=
  match restrict with
  | some cats => rows.filter (fun r => decide (r.2 ∈ cats))
  | none => rows

/-- The snapshot filter of `_candidates`: `df_items` restricted by
`isin(restrict_cats)` when a restriction is given, projected to ids. -/
def snapshotList (m : Model) (restrict : Option (List CatId)) : List ItemId :=
  match restrict with
  | some cats => (m.dfItems.filter (fun r => decide (r.2 ∈ cats))).map (fun r => r.1)
  | none => m.dfItems.map (fun r => r.1)

/-- The candidate provider `_candidates`: it returns the live query result
when the query succeeds with non-empty data (`if result.data:`), otherwise
it falls through to the model snapshot, and to the empty list when the
model is unavailable. -/
def _candidates (env : Env) (restrict : Option (List CatId)) : List ItemId :=
  let live : List ItemId :=
    match env.liveDb with
    | LiveDb.table rows => (liveRows rows restrict).map (fun r => r.1)
    | _ => []
  if live ≠ [] then live
  else
    match env.model with
    | none => []
    | some m => snapshotList m restrict

/-- Descending-score order on scored items: `a` may come before `b` when
the score of `b` is at most the score of `a`. -/
def descR (a b : ItemId × Score) : Prop := b.2 ≤ a.2

instance : DecidableRel descR := fun a b => inferInstanceAs (Decidable (b.2 ≤ a.2))

instance : IsTotal (ItemId × Score) descR :=
  ⟨fun a b => (le_total b.2 a.2).imp id id⟩

instance : IsTrans (ItemId × Score) descR :=
  ⟨fun _ _ _ h1 h2 => le_trans h2 h1⟩

/-- The stable descending sort `scored.sort(key=lambda x: x[1], reverse=True)`:
Python list.sort is stable, and the unique stable non-increasing reordering
of a list is computed by insertion sort over `descR`. -/
def sortDesc (l : List (ItemId × Score)) : List (ItemId × Score) :=
  List.insertionSort descR l

/-- Python slicing `xs[:n]` for an arbitrary (possibly negative) integer `n`. -/
def pySliceTake (n : Int) (xs : List (ItemId × Score)) : List (ItemId × Score) :=
  if 0 ≤ n then xs.take n.toNat
  else xs.take (xs.length - min xs.length (-n).toNat)

/-- The output normalisation `scored if n >= 1000 else scored[:n]` shared by
every scoring path. -/
def truncateBy (n : Int) (xs : List (ItemId × Score)) : List (ItemId × Score) :=
  if 1000 ≤ n then xs else pySliceTake n xs

/-- Positional scoring `for i, iid in enumerate(candidates)` starting at
index `k`. -/
def posScoreFrom (f : Nat → Score) : Nat → List ItemId → List (ItemId × Score)
  | _, [] => []
  | i, x :: xs => (x, f i) :: posScoreFrom f (i + 1) xs

/-- Positional scoring of a candidate list from index 0. -/
def posScore (f : Nat → Score) (l : List ItemId) : List (ItemId × Score) :=
  posScoreFrom f 0 l

/-- The positional score of `get_all_items_fallback`:
`10.0 - (i * 0.1) if i < 100 else 1.0`. -/
def fbScore (i : Nat) : Score :=
  if i < 100 then 10 - i * (1 / 10 : Score) else 1

/-- The positional score of `get_all_items_fallback_from_db`:
`10.0 - (i * 0.05) if i < 200 else 1.0`. -/
def dbScore (i : Nat) : Score :=
  if i < 200 then 10 - i * (1 / 20 : Score) else 1

/-- The scored list built by `get_all_items_fallback` before sorting. -/
def fallbackScored (env : Env) (restrict : Option (List CatId)) :
    List (ItemId × Score) :=
  posScore fbScore (_candidates env restrict)

/-- The model-data fallback ranker `get_all_items_fallback`. -/
def get_all_items_fallback (env : Env) (restrict : Option (List CatId))
    (n : Int) : List (ItemId × Score) :=
  truncateBy n (sortDesc (fallbackScored env restrict))

/-- The scored list built by `get_all_items_fallback_from_db` from the
fetched rows before sorting. -/
def dbScored (rows : List (ItemId × CatId)) : List (ItemId × Score) :=
  posScore dbScore (rows.map (fun r => r.1))

/-- The database fallback ranker `get_all_items_fallback_from_db`: when the
client is unconfigured, the query raises, or the query returns no rows, it
delegates to `get_all_items_fallback`; otherwise it scores the fetched rows
positionally, sorts and truncates. -/
def get_all_items_fallback_from_db (env : Env) (restrict : Option (List CatId))
    (n : Int) : List (ItemId × Score) :=
  match env.liveDb with
  | LiveDb.notConfigured => get_all_items_fallback env restrict n
  | LiveDb.failing => get_all_items_fallback env restrict n
  | LiveDb.table rows =>
    let fetched := liveRows rows restrict
    if fetched = [] then get_all_items_fallback env restrict n
    else truncateBy n (sortDesc (dbScored fetched))

/-- Scoring of a candidate list by a skip predicate and a score function:
the loop body `if <skip>: continue; append((iid, score))`. -/
def scoreMap (skip : ItemId → Bool) (g : ItemId → Score) (l : List ItemId) :
    List (ItemId × Score) :=
  l.filterMap (fun c => if skip c then none else some (c, g c))

/-- The predictions list built by `topn_for_user` before sorting: skip
items already rated (`taken`) or unknown to the model, else predict. -/
def topnScored (env : Env) (m : Model) (user : String)
    (restrict : Option (List CatId)) : List (ItemId × Score) :=
  scoreMap (fun iid => decide (iid ∈ takenItems env user) || !knownIn m iid)
    (fun iid => m.predictEst user iid) (_candidates env restrict)

/-- The known-user scorer `topn_for_user`. -/
def topn_for_user (env : Env) (m : Model) (user : String) (n : Int)
    (restrict : Option (List CatId)) : List (ItemId × Score) :=
  truncateBy n (sortDesc (topnScored env m user restrict))

/-- Component-wise sum of a stack of vectors, as `np.stack` plus summation. -/
def vecSum : List (List Score) → List Score
  | [] => []
  | [v] => v
  | v :: vs => List.zipWith (· + ·) v (vecSum vs)

/-- Component-wise arithmetic mean, as `np.mean(np.stack(vs, axis=0), axis=0)`. -/
def vecMean (vs : List (List Score)) : List Score :=
  (vecSum vs).map (fun x => x / (vs.length : Score))

/-- Dot product `np.dot`. -/
def dot (a b : List Score) : Score :=
  (List.zipWith (· * ·) a b).sum

/-- The model-known items of the snapshot whose category lies in the given
set, in snapshot order: the items whose latent vectors feed the pseudo-user. -/
def knownCatItems (m : Model) (cats : List CatId) : List ItemId :=
  ((m.dfItems.filter (fun r => decide (r.2 ∈ cats))).map (fun r => r.1)).filter
    (fun iid => knownIn m iid)

/-- The cold-start pseudo-user builder `pseudo_user_vector_from_categories`. -/
def pseudo_user_vector_from_categories (m : Model) (cats : List CatId) :
    Option (List Score) :=
  let qvecs := (knownCatItems m cats).map m.qi
  if qvecs = [] then none else some (vecMean qvecs)

/-- The scored list built by `score_items_for_pseudo_user` before sorting:
skip excluded or unknown items, else `GLOBAL_MEAN + bi + dot(qi, pu_vec)`
(the user bias of a new user is zero). -/
def pseudoScored (env : Env) (m : Model) (pu : List Score)
    (exclude : List ItemId) (restrict : Option (List CatId)) :
    List (ItemId × Score) :=
  scoreMap (fun iid => decide (iid ∈ exclude) || !knownIn m iid)
    (fun iid => m.globalMean + m.bi iid + dot (m.qi iid) pu)
    (_candidates env restrict)

/-- The cold-start scorer `score_items_for_pseudo_user`. -/
def score_items_for_pseudo_user (env : Env) (m : Model) (pu : List Score)
    (exclude : List ItemId) (restrict : Option (List CatId)) (n : Int) :
    List (ItemId × Score) :=
  truncateBy n (sortDesc (pseudoScored env m pu exclude restrict))

/-- The cold-start-or-fallback tail of `recommend`: when the category list
is truthy, try the pseudo-user vector and score against it; otherwise, or
when the vector is absent, use the database fallback. -/
def coldOrFallback (env : Env) (m : Model) (cats? : Option (List CatId))
    (n : Int) : List (ItemId × Score) :=
  match cats? with
  | some cats =>
    if cats ≠ [] then
      match pseudo_user_vector_from_categories m cats with
      | some pu => score_items_for_pseudo_user env m pu [] cats? n
      | none => get_all_items_fallback_from_db env cats? n
    else get_all_items_fallback_from_db env cats? n
  | none => get_all_items_fallback_from_db env cats? n

/-- The dispatcher `recommend(user_id, selected_cat_ids, n, k_min_interactions)`. -/
def recommend (env : Env) (user? : Option String) (cats? : Option (List CatId))
    (n : Int) (k : Nat) : List (ItemId × Score) :=
  match env.model with
  | none => get_all_items_fallback_from_db env cats? n
  | some m =>
    match user? with
    | some u =>
      if k ≤ n_inter env u then topn_for_user env m u n cats?
      else coldOrFallback env m cats? n
    | none => coldOrFallback env m cats? n

/-- Strategies of the dispatcher, as named by the spec. -/
inductive Strategy
  | knownUser
  | coldStart
  | fallback
deriving DecidableEq

/-- Truthiness of the optional category list (`if selected_cat_ids:`). -/
def catsTruthy (cats? : Option (List CatId)) : Bool :=
  match cats? with
  | some cats => !cats.isEmpty
  | none => false

/-- Modelled from the spec: the classification of which dispatch branch of
`recommend` fires (the source function returns only the scored list and
reports no strategy). -/
def recommendBranch (env : Env) (user? : Option String)
    (cats? : Option (List CatId)) (k : Nat) : Strategy :=
  match env.model with
  | none => Strategy.fallback
  | some m =>
    if (match user? with
        | some u => decide (k ≤ n_inter env u)
        | none => false) then Strategy.knownUser
    else
      match cats? with
      | some cats =>
        if cats ≠ [] ∧ (pseudo_user_vector_from_categories m cats).isSome
        then Strategy.coldStart
        else Strategy.fallback
      | none => Strategy.fallback

/-- The router-side label of `get_recommendations`: `fallback` when the
result list is empty, else `cold_start` when the preference category list
is truthy, else `personalized`. -/
def recommendation_type (cats? : Option (List CatId))
    (recs : List (ItemId × Score)) : String :=
  if recs.isEmpty then "fallback"
  else if catsTruthy cats? then "cold_start"
  else "personalized"

/-- Modelled from the spec: the Live Catalog Source result, `none` when the
live source is unconfigured or failing, else the (filtered) rows projected
to ids. -/
def liveList (env : Env) (restrict : Option (List CatId)) :
    Option (List ItemId) :=
  match env.liveDb with
  | LiveDb.table rows => some ((liveRows rows restrict).map (fun r => r.1))
  | _ => none

/-- Modelled from the spec: the Live Interaction Source operation
`interaction_count(user_id)`, counting the live store rows of the user. -/
def interaction_count_live (env : Env) (user : String) : Nat :=
  (env.liveRatings.filter (fun r => decide (r.1 = user))).length

/-- A small model artifact: items a (category 1, known) and b (category 2,
unknown to the training set). -/
def mA : Model where
  dfItems := [("a", 1), ("b", 2)]
  knownIds := ["a"]
  qi := fun _ => [1]
  bi := fun _ => 0
  predictEst := fun _ _ => 4
  globalMean := 3

/-- A process state whose model failed to load. -/
def envNoModel : Env where
  model := none
  liveDb := LiveDb.table [("a", 1), ("b", 2)]
  liveRatings := []

/-- A process state with model `mA` and no live database. -/
def envA : Env where
  model := some mA
  liveDb := LiveDb.notConfigured
  liveRatings := []

/-- A model artifact whose training set is empty: no pseudo-user vector is
representable for any category. -/
def mB : Model where
  dfItems := [("a", 1)]
  knownIds := []
  qi := fun _ => []
  bi := fun _ => 0
  predictEst := fun _ _ => 0
  globalMean := 3

/-- A process state with model `mB` and a live table holding item a. -/
def envB : Env where
  model := some mB
  liveDb := LiveDb.table [("a", 1)]
  liveRatings := []

/-- A model artifact whose catalog snapshot repeats one item row. -/
def mDup : Model where
  dfItems := [("a", 1), ("a", 1)]
  knownIds := ["a"]
  qi := fun _ => [1]
  bi := fun _ => 0
  predictEst := fun _ _ => 4
  globalMean := 3

/-- A process state whose candidate list contains a duplicate id. -/
def envDup : Env where
  model := some mDup
  liveDb := LiveDb.notConfigured
  liveRatings := []

/-- A model artifact with two known items of category 1 and two-dimensional
latent vectors. -/
def mC4 : Model where
  dfItems := [("a", 1), ("b", 1)]
  knownIds := ["a", "b"]
  qi := fun iid => if iid = "a" then [1, 3] else [3, 5]
  bi := fun _ => 0
  predictEst := fun _ _ => 0
  globalMean := 3

/-- A model artifact with category-1 items a (known) and b (unknown). -/
def mC6 : Model where
  dfItems := [("a", 1), ("b", 1)]
  knownIds := ["a"]
  qi := fun _ => [1]
  bi := fun _ => 0
  predictEst := fun _ _ => 0
  globalMean := 3

/-- A process state with model `mC6` and no live database. -/
def envC6 : Env where
  model := some mC6
  liveDb := LiveDb.notConfigured
  liveRatings := []

/-- A model artifact holding one category-3 item. -/
def mC7 : Model where
  dfItems := [("m", 3)]
  knownIds := []
  qi := fun _ => []
  bi := fun _ => 0
  predictEst := fun _ _ => 0
  globalMean := 3

/-- A process state whose live table holds only a category-5 item while the
snapshot holds a category-3 item: a category-3 query succeeds on the live
source with an empty result. -/
def envC7 : Env where
  model := some mC7
  liveDb := LiveDb.table [("x", 5)]
  liveRatings := []

/-- A process state with no model and a two-row live table. -/
def envC8 : Env where
  model := none
  liveDb := LiveDb.table [("a", 1), ("b", 2)]
  liveRatings := []

/-- A process state whose live interaction store holds three ratings of
user u, while the model is loaded. -/
def envC9 : Env where
  model := some mA
  liveDb := LiveDb.notConfigured
  liveRatings := [("u", "a"), ("u", "b"), ("u", "c")]

/-- A model artifact whose snapshot has 101 item rows, so that the model
fallback scorer crosses its positional cutoff. -/
def mBig : Model where
  dfItems := List.replicate 101 ("x", 1)
  knownIds := []
  qi := fun _ => []
  bi := fun _ => 0
  predictEst := fun _ _ => 0
  globalMean := 3

/-- A process state with model `mBig` and no live database. -/
def envBig : Env where
  model := some mBig
  liveDb := LiveDb.notConfigured
  liveRatings := []

theorem descR_def (a b : ItemId × Score) : descR a b ↔ b.2 ≤ a.2 := Iff.rfl

theorem filter_orderedInsert (a : ItemId × Score) (l : List (ItemId × Score))
    (s : Score) :
    (List.orderedInsert descR a l).filter (fun p => decide (p.2 = s)) =
      if a.2 = s then a :: l.filter (fun p => decide (p.2 = s))
      else l.filter (fun p => decide (p.2 = s)) := by
  induction l with
  | nil =>
    by_cases h : a.2 = s <;> simp [List.orderedInsert, List.filter, h]
  | cons b t ih =>
    rw [List.orderedInsert]
    by_cases hab : descR a b
    · rw [if_pos hab]
      by_cases h : a.2 = s <;> simp [List.filter_cons, h]
    · rw [if_neg hab]
      have hlt : a.2 < b.2 := lt_of_not_le (fun hba => hab ((descR_def a b).mpr hba))
      by_cases h : a.2 = s
      · have hb : ¬ (b.2 = s) := by rw [← h]; exact ne_of_gt hlt
        simp [List.filter_cons, hb, ih, h]
      · simp [List.filter_cons, ih, h]

/-- Stability of the descending sort: the elements carrying one fixed score
appear in the sorted list exactly in their original order. -/
theorem filter_sortDesc (l : List (ItemId × Score)) (s : Score) :
    (sortDesc l).filter (fun p => decide (p.2 = s)) =
      l.filter (fun p => decide (p.2 = s)) := by
  induction l with
  | nil => rfl
  | cons a t ih =>
    have e1 : sortDesc (a :: t) = List.orderedInsert descR a (sortDesc t) := rfl
    rw [e1, filter_orderedInsert, ih]
    by_cases h : a.2 = s <;> simp [List.filter_cons, h]

theorem sortDesc_sorted (l : List (ItemId × Score)) :
    List.Sorted descR (sortDesc l) :=
  List.sorted_insertionSort descR l

theorem sortDesc_perm (l : List (ItemId × Score)) : List.Perm (sortDesc l) l :=
  List.perm_insertionSort descR l

theorem truncateBy_sublist (n : Int) (xs : List (ItemId × Score)) :
    List.Sublist (truncateBy n xs) xs := by
  unfold truncateBy pySliceTake
  split
  · exact List.Sublist.refl xs
  · split <;> exact List.take_sublist _ _

theorem truncateBy_of_ge {n : Int} (h : 1000 ≤ n) (xs : List (ItemId × Score)) :
    truncateBy n xs = xs := by
  simp [truncateBy, h]

theorem truncateBy_of_nonneg_lt {n : Int} (h0 : 0 ≤ n) (h : n < 1000)
    (xs : List (ItemId × Score)) : truncateBy n xs = xs.take n.toNat := by
  simp [truncateBy, pySliceTake, h0, not_le.mpr h]

theorem truncateBy_of_neg {n : Int} (h : n < 0) (xs : List (ItemId × Score)) :
    truncateBy n xs = xs.take (xs.length - min xs.length (-n).toNat) := by
  have h1 : ¬ (1000 : Int) ≤ n := by omega
  have h0 : ¬ (0 : Int) ≤ n := by omega
  simp [truncateBy, pySliceTake, h1, h0]

theorem truncateBy_sorted {xs : List (ItemId × Score)}
    (h : List.Sorted descR xs) (n : Int) :
    List.Sorted descR (truncateBy n xs) :=
  List.Pairwise.sublist (truncateBy_sublist n xs) h

theorem sorted_scores_get {xs : List (ItemId × Score)}
    (h : List.Sorted descR xs) {i j : Fin xs.length} (hij : i < j) :
    (xs.get j).2 ≤ (xs.get i).2 :=
  h.rel_get_of_lt hij

theorem scoreMap_map_fst (skip : ItemId → Bool) (g : ItemId → Score)
    (l : List ItemId) :
    (scoreMap skip g l).map Prod.fst = l.filter (fun c => !skip c) := by
  induction l with
  | nil => rfl
  | cons a t ih =>
    by_cases h : skip a
    · have e1 : scoreMap skip g (a :: t) = scoreMap skip g t := by
        simp [scoreMap, List.filterMap_cons, h]
      rw [e1, ih, List.filter_cons]
      simp [h]
    · have e1 : scoreMap skip g (a :: t) = (a, g a) :: scoreMap skip g t := by
        simp [scoreMap, List.filterMap_cons, h]
      rw [e1, List.map_cons, ih, List.filter_cons]
      simp [h]

theorem scoreMap_mem {skip : ItemId → Bool} {g : ItemId → Score}
    {l : List ItemId} {x : ItemId × Score} (hx : x ∈ scoreMap skip g l) :
    x.1 ∈ l ∧ skip x.1 = false ∧ x.2 = g x.1 := by
  rcases List.mem_filterMap.mp hx with ⟨a, ha, hfa⟩
  by_cases h : skip a
  · simp [h] at hfa
  · have hfalse : skip a = false := by simpa using h
    rw [hfalse] at hfa
    simp only [Bool.false_eq_true, if_false, Option.some.injEq] at hfa
    subst hfa
    exact ⟨ha, hfalse, rfl⟩

theorem scoreMap_mem_of {skip : ItemId → Bool} {g : ItemId → Score}
    {l : List ItemId} {c : ItemId} (hc : c ∈ l) (h1 : skip c = false) :
    (c, g c) ∈ scoreMap skip g l :=
  List.mem_filterMap.mpr ⟨c, hc, by simp [h1]⟩

theorem posScoreFrom_map_fst (f : Nat → Score) (k : Nat) (l : List ItemId) :
    (posScoreFrom f k l).map Prod.fst = l := by
  induction l generalizing k with
  | nil => rfl
  | cons a t ih => simp [posScoreFrom, ih]

theorem posScore_map_fst (f : Nat → Score) (l : List ItemId) :
    (posScore f l).map Prod.fst = l :=
  posScoreFrom_map_fst f 0 l

theorem posScoreFrom_length (f : Nat → Score) (k : Nat) (l : List ItemId) :
    (posScoreFrom f k l).length = l.length := by
  induction l generalizing k with
  | nil => rfl
  | cons a t ih => simp [posScoreFrom, ih]

theorem posScore_length (f : Nat → Score) (l : List ItemId) :
    (posScore f l).length = l.length :=
  posScoreFrom_length f 0 l

theorem posScoreFrom_get (f : Nat → Score) (k : Nat) (l : List ItemId)
    (i : Nat) (h : i < (posScoreFrom f k l).length)
    (h2 : i < l.length) :
    (posScoreFrom f k l).get ⟨i, h⟩ = (l.get ⟨i, h2⟩, f (k + i)) := by
  induction l generalizing k i with
  | nil => simp [posScoreFrom] at h
  | cons a t ih =>
    cases i with
    | zero => simp [posScoreFrom]
    | succ j =>
      have hj : j < (posScoreFrom f (k + 1) t).length := by
        simpa [posScoreFrom] using h
      have hj2 : j < t.length := by simpa using h2
      show (posScoreFrom f (k + 1) t).get ⟨j, hj⟩ = _
      rw [ih (k + 1) j hj hj2]
      have harith : k + 1 + j = k + (j + 1) := by omega
      rw [harith]
      simp

theorem posScore_get (f : Nat → Score) (l : List ItemId) (i : Nat)
    (h : i < (posScore f l).length) (h2 : i < l.length) :
    (posScore f l).get ⟨i, h⟩ = (l.get ⟨i, h2⟩, f i) := by
  simpa using posScoreFrom_get f 0 l i h h2

/-- Distinctness of the ids of a sorted-and-truncated scored list follows
from distinctness of the ids of the scored list itself. -/
theorem nodup_truncate_sort {scored : List (ItemId × Score)}
    (h : (scored.map Prod.fst).Nodup) (n : Int) :
    ((truncateBy n (sortDesc scored)).map Prod.fst).Nodup := by
  have h1 : ((sortDesc scored).map Prod.fst).Nodup :=
    (((sortDesc_perm scored).map Prod.fst).nodup_iff).mpr h
  exact List.Sublist.nodup
    (List.Sublist.map Prod.fst (truncateBy_sublist n (sortDesc scored))) h1

/-- When the model is loaded and the known-user guard fails, `recommend`
runs its cold-start-or-fallback tail. -/
theorem recommend_cold (env : Env) {m : Model} (user? : Option String)
    (cats? : Option (List CatId)) (n : Int) (k : Nat)
    (hm : env.model = some m)
    (hu : ∀ u, user? = some u → n_inter env u < k) :
    recommend env user? cats? n k = coldOrFallback env m cats? n := by
  unfold recommend
  rw [hm]
  cases user? with
  | none => rfl
  | some u =>
    have hlt := hu u rfl
    simp [Nat.not_le.mpr hlt]

/-- C1: the dispatcher `recommend` selects its strategy by guarded
conditions, first match wins: model unavailable gives the fallback ranker;
else a given user with at least `k_min_interactions` historical
interactions gives the known-user scorer restricted to the given
categories; else a truthy category list gives the cold-start scorer when
the pseudo-vector exists and falls through when it is absent; else the
fallback ranker. -/
theorem C1_dispatch_guards (env : Env) (user? : Option String)
    (cats? : Option (List CatId)) (n : Int) (k : Nat) :
    (env.model = none →
      recommend env user? cats? n k = get_all_items_fallback_from_db env cats? n)
    ∧ (∀ m u, env.model = some m → user? = some u → k ≤ n_inter env u →
      recommend env user? cats? n k = topn_for_user env m u n cats?)
    ∧ (∀ m cats, env.model = some m →
      (∀ u, user? = some u → n_inter env u < k) →
      cats? = some cats → cats ≠ [] →
      (∀ pu, pseudo_user_vector_from_categories m cats = some pu →
        recommend env user? cats? n k =
          score_items_for_pseudo_user env m pu [] cats? n)
      ∧ (pseudo_user_vector_from_categories m cats = none →
        recommend env user? cats? n k =
          get_all_items_fallback_from_db env cats? n))
    ∧ (∀ m, env.model = some m →
      (∀ u, user? = some u → n_inter env u < k) →
      catsTruthy cats? = false →
      recommend env user? cats? n k =
        get_all_items_fallback_from_db env cats? n) := by
  refine ⟨?_, ?_, ?_, ?_⟩
  · intro h
    unfold recommend
    rw [h]
  · intro m u hm hu hk
    subst hu
    unfold recommend
    rw [hm]
    simp [hk]
  · intro m cats hm hu hc hne
    subst hc
    rw [recommend_cold env user? (some cats) n k hm hu]
    constructor
    · intro pu hpu
      simp [coldOrFallback, hne, hpu]
    · intro hpu
      simp [coldOrFallback, hne, hpu]
  · intro m hm hu hc
    rw [recommend_cold env user? cats? n k hm hu]
    cases cats? with
    | none => rfl
    | some cats =>
      have he : cats = [] := by
        simpa [catsTruthy, List.isEmpty_iff] using hc
      simp [coldOrFallback, he]

/-- C1 witness: the fallback guard fires for an unavailable model, and the
cold-start guard fires for category 1 under model `mA`. -/
theorem C1_dispatch_guards_witness :
    recommend envNoModel none none 5 3 =
      get_all_items_fallback_from_db envNoModel none 5
    ∧ recommend envA none (some [1]) 5 3 =
      score_items_for_pseudo_user envA mA [1] [] (some [1]) 5 := by
  constructor
  · exact (C1_dispatch_guards envNoModel none none 5 3).1 rfl
  · exact ((C1_dispatch_guards envA none (some [1]) 5 3).2.2.1 mA [1] rfl
      (fun u hu => by cases hu) rfl (by decide)).1 [1] (by decide)

/-- C2 counterexample: under `envB` the pseudo-vector is absent, so the
fallback branch fires, yet the router labels the non-empty result
cold_start; the engine itself returns only the scored list, and the label
is re-derived from the inputs and the output. -/
theorem C2_label_cex :
    recommendBranch envB none (some [1]) 3 = Strategy.fallback ∧
    recommendation_type (some [1]) (recommend envB none (some [1]) 5 3) =
      "cold_start" := by decide

/-- C2 (amended): the engine returns only the ordered scored list; the
strategy label reported to the caller is computed by the router after the
fact, as a function of result emptiness and category truthiness alone, and
so it can disagree with the dispatch branch that fired. -/
theorem C2_label_from_inputs (cats1 cats2 : Option (List CatId))
    (r1 r2 : List (ItemId × Score))
    (he : r1.isEmpty = r2.isEmpty)
    (hc : catsTruthy cats1 = catsTruthy cats2) :
    recommendation_type cats1 r1 = recommendation_type cats2 r2 := by
  unfold recommendation_type
  rw [he, hc]

/-- C2 witness: two different inputs agreeing on emptiness and truthiness
receive the same router label. -/
theorem C2_label_from_inputs_witness :
    recommendation_type (some [1]) [("a", 1)] =
      recommendation_type (some [2, 3]) [("b", 2), ("c", 0)] :=
  C2_label_from_inputs (some [1]) (some [2, 3]) [("a", 1)] [("b", 2), ("c", 0)]
    (by decide) (by decide)

/-- C9 counterexample: the live interaction store holds three ratings of
user u and the threshold is 3, yet the dispatcher does not choose the
known-user branch, because the interaction data is the frozen empty
df_ratings computed at import, not the live store. -/
theorem C9_frozen_interactions_cex :
    interaction_count_live envC9 "u" = 3 ∧
    recommendBranch envC9 (some "u") none 3 = Strategy.fallback := by decide

/-- C9 (amended): the interaction data used by the dispatcher comes from
the module-level df_ratings, frozen at process start by a no-op hook that
returns an empty table; hence every interaction count is 0, the excluded
set is empty, and for any positive threshold the known-user branch never
fires regardless of the live store. -/
theorem C9_interactions_frozen (env : Env) (user : String)
    (user? : Option String) (cats? : Option (List CatId)) (n : Int) (k : Nat)
    (hk : 1 ≤ k) :
    n_inter env user = 0 ∧ takenItems env user = [] ∧
    recommendBranch env user? cats? k ≠ Strategy.knownUser ∧
    (∀ m, env.model = some m →
      recommend env user? cats? n k = coldOrFallback env m cats? n) := by
  refine ⟨rfl, rfl, ?_, ?_⟩
  · unfold recommendBranch
    cases hmod : env.model with
    | none => simp
    | some m =>
      have hcond : (match user? with
          | some u => decide (k ≤ n_inter env u)
          | none => false) = false := by
        cases user? with
        | none => rfl
        | some u =>
          have h0 : n_inter env u = 0 := rfl
          simp [h0]
          omega
      rw [hcond]
      simp only [Bool.false_eq_true, if_false]
      cases cats? with
      | none => simp
      | some cats =>
        dsimp only
        split <;> simp
  · intro m hm
    exact recommend_cold env user? cats? n k hm (fun u _ => hk)

/-- C9 witness: instantiation at the live-store state `envC9`. -/
theorem C9_interactions_frozen_witness :
    n_inter envC9 "u" = 0 ∧
    recommendBranch envC9 (some "u") none 3 ≠ Strategy.knownUser := by
  have h := C9_interactions_frozen envC9 "u" (some "u") none 5 3 (by decide)
  exact ⟨h.1, h.2.2.1⟩

/-- C7 counterexample: the live catalog query for category 3 succeeds with
an empty result, but the candidate provider returns the snapshot item
instead of the (empty) live result. -/
theorem C7_live_empty_cex :
    liveList envC7 (some [3]) = some [] ∧
    _candidates envC7 (some [3]) = ["m"] := by decide

/-- C7 (amended): the candidate provider returns the live result exactly
when the live query succeeds with non-empty data; on a failing or
unconfigured live source, and also on a successful but empty live result,
it returns the same-way-filtered snapshot when the model is available and
the empty list otherwise. -/
theorem C7_candidates_characterisation (env : Env)
    (restrict : Option (List CatId)) :
    (∀ rows, env.liveDb = LiveDb.table rows →
      (liveRows rows restrict).map (fun r => r.1) ≠ [] →
      _candidates env restrict = (liveRows rows restrict).map (fun r => r.1))
    ∧ ((liveList env restrict = none ∨ liveList env restrict = some []) →
      (∀ m, env.model = some m →
        _candidates env restrict = snapshotList m restrict)
      ∧ (env.model = none → _candidates env restrict = [])) := by
  constructor
  · intro rows hrows hne
    simp [_candidates, hrows, hne]
  · intro hlive
    constructor
    · intro m hm
      cases hdb : env.liveDb with
      | notConfigured => simp [_candidates, hdb, hm]
      | failing => simp [_candidates, hdb, hm]
      | table rows =>
        rcases hlive with h | h
        · rw [liveList, hdb] at h
          cases h
        · rw [liveList, hdb] at h
          have hmap : (liveRows rows restrict).map (fun r => r.1) = [] :=
            Option.some.inj h
          simp [_candidates, hdb, hmap, hm]
    · intro hm
      cases hdb : env.liveDb with
      | notConfigured => simp [_candidates, hdb, hm]
      | failing => simp [_candidates, hdb, hm]
      | table rows =>
        rcases hlive with h | h
        · rw [liveList, hdb] at h
          cases h
        · rw [liveList, hdb] at h
          have hmap : (liveRows rows restrict).map (fun r => r.1) = [] :=
            Option.some.inj h
          simp [_candidates, hdb, hmap, hm]

/-- C7 witness: the provider returns the live rows of `envC8` and the
snapshot of `envA`. -/
theorem C7_candidates_characterisation_witness :
    _candidates envC8 none =
      (liveRows [("a", 1), ("b", 2)] none).map (fun r => r.1)
    ∧ _candidates envA none = snapshotList mA none :=
  ⟨(C7_candidates_characterisation envC8 none).1 [("a", 1), ("b", 2)] rfl
      (by decide),
   ((C7_candidates_characterisation envA none).2 (Or.inl rfl)).1 mA rfl⟩

/-- The model fallback at any count is the truncation of its full ranking. -/
theorem gaif_as_trunc (env : Env) (restrict : Option (List CatId)) (n : Int) :
    get_all_items_fallback env restrict n =
      truncateBy n (get_all_items_fallback env restrict 1000) := by
  unfold get_all_items_fallback
  rw [truncateBy_of_ge (show (1000 : Int) ≤ 1000 from le_refl _)]

/-- The database fallback at any count is the truncation of its full
ranking. -/
theorem gaifdb_as_trunc (env : Env) (restrict : Option (List CatId))
    (n : Int) :
    get_all_items_fallback_from_db env restrict n =
      truncateBy n (get_all_items_fallback_from_db env restrict 1000) := by
  unfold get_all_items_fallback_from_db
  cases env.liveDb with
  | notConfigured => exact gaif_as_trunc env restrict n
  | failing => exact gaif_as_trunc env restrict n
  | table rows =>
    by_cases h : liveRows rows restrict = []
    · simp only [h, if_pos rfl]
      exact gaif_as_trunc env restrict n
    · simp only [if_neg h]
      rw [truncateBy_of_ge (show (1000 : Int) ≤ 1000 from le_refl _)]

/-- The known-user scorer at any count is the truncation of its full
ranking. -/
theorem topn_as_trunc (env : Env) (m : Model) (user : String) (n : Int)
    (restrict : Option (List CatId)) :
    topn_for_user env m user n restrict =
      truncateBy n (topn_for_user env m user 1000 restrict) := by
  unfold topn_for_user
  rw [truncateBy_of_ge (show (1000 : Int) ≤ 1000 from le_refl _)]

/-- The cold-start scorer at any count is the truncation of its full
ranking. -/
theorem score_as_trunc (env : Env) (m : Model) (pu : List Score)
    (exclude : List ItemId) (restrict : Option (List CatId)) (n : Int) :
    score_items_for_pseudo_user env m pu exclude restrict n =
      truncateBy n (score_items_for_pseudo_user env m pu exclude restrict 1000) := by
  unfold score_items_for_pseudo_user
  rw [truncateBy_of_ge (show (1000 : Int) ≤ 1000 from le_refl _)]

/-- The cold-start-or-fallback tail at any count is the truncation of its
full ranking. -/
theorem coldOrFallback_as_trunc (env : Env) (m : Model)
    (cats? : Option (List CatId)) (n : Int) :
    coldOrFallback env m cats? n =
      truncateBy n (coldOrFallback env m cats? 1000) := by
  unfold coldOrFallback
  cases cats? with
  | none => exact gaifdb_as_trunc env none n
  | some cats =>
    by_cases hne : cats ≠ []
    · simp only [if_pos hne]
      cases hp : pseudo_user_vector_from_categories m cats with
      | some pu => exact score_as_trunc env m pu [] (some cats) n
      | none => exact gaifdb_as_trunc env (some cats) n
    · simp only [if_neg hne]
      exact gaifdb_as_trunc env (some cats) n

/-- The dispatcher at any count is the truncation of its full ranking. -/
theorem recommend_as_trunc (env : Env) (user? : Option String)
    (cats? : Option (List CatId)) (n : Int) (k : Nat) :
    recommend env user? cats? n k =
      truncateBy n (recommend env user? cats? 1000 k) := by
  unfold recommend
  cases env.model with
  | none => exact gaifdb_as_trunc env cats? n
  | some m =>
    cases user? with
    | none => exact coldOrFallback_as_trunc env m cats? n
    | some u =>
      by_cases hk : k ≤ n_inter env u
      · simp only [if_pos hk]
        exact topn_as_trunc env m u n cats?
      · simp only [if_neg hk]
        exact coldOrFallback_as_trunc env m cats? n

/-- C8 counterexample: a call with requested count -1 is not rejected: the
dispatcher proceeds to scoring and returns a non-empty list, namely the
ranked list with its last entry dropped by Python slice semantics. -/
theorem C8_no_validation_cex :
    recommend envC8 none none (-1) 3 = [("a", 10)] := by decide

/-- C8 (amended): recommend performs no input validation and surfaces no
error: a negative requested count is accepted, and Python slice semantics
return the full ranked list with its last |n| entries dropped (count
validation exists only in the HTTP router via its ge=1 query constraint). -/
theorem C8_negative_count (env : Env) (user? : Option String)
    (cats? : Option (List CatId)) (k : Nat) (n : Int) (hn : n < 0) :
    recommend env user? cats? n k =
      (recommend env user? cats? 1000 k).take
        ((recommend env user? cats? 1000 k).length -
          min (recommend env user? cats? 1000 k).length (-n).toNat) := by
  rw [recommend_as_trunc env user? cats? n k, truncateBy_of_neg hn]

/-- C3 counterexample: with a duplicated snapshot row the fallback ranker
returns the same item id twice, so the ranked list is not pairwise
distinct for every input. -/
theorem C3_distinct_cex :
    ¬ (((get_all_items_fallback envDup none 10).map Prod.fst).Nodup) := by
  decide

/-- C3 (amended): every scorer returns a list sorted by non-increasing
score whose ties keep their original candidate order (the sort is stable),
and the ids are pairwise distinct whenever the candidate sequence is
duplicate-free — which the scorers themselves do not enforce. -/
theorem C3_ranking_invariants (env : Env) (m : Model) (user : String)
    (pu : List Score) (exclude : List ItemId) (restrict : Option (List CatId))
    (rows : List (ItemId × CatId)) (n : Int) (s : Score) :
    List.Sorted descR (get_all_items_fallback env restrict n)
    ∧ List.Sorted descR (get_all_items_fallback_from_db env restrict n)
    ∧ List.Sorted descR (topn_for_user env m user n restrict)
    ∧ List.Sorted descR (score_items_for_pseudo_user env m pu exclude restrict n)
    ∧ (sortDesc (fallbackScored env restrict)).filter (fun p => decide (p.2 = s)) =
        (fallbackScored env restrict).filter (fun p => decide (p.2 = s))
    ∧ (sortDesc (dbScored rows)).filter (fun p => decide (p.2 = s)) =
        (dbScored rows).filter (fun p => decide (p.2 = s))
    ∧ (sortDesc (topnScored env m user restrict)).filter (fun p => decide (p.2 = s)) =
        (topnScored env m user restrict).filter (fun p => decide (p.2 = s))
    ∧ (sortDesc (pseudoScored env m pu exclude restrict)).filter (fun p => decide (p.2 = s)) =
        (pseudoScored env m pu exclude restrict).filter (fun p => decide (p.2 = s))
    ∧ ((_candidates env restrict).Nodup →
        ((get_all_items_fallback env restrict n).map Prod.fst).Nodup
        ∧ ((topn_for_user env m user n restrict).map Prod.fst).Nodup
        ∧ ((score_items_for_pseudo_user env m pu exclude restrict n).map Prod.fst).Nodup)
    ∧ ((rows.map (fun r => r.1)).Nodup →
        ((truncateBy n (sortDesc (dbScored rows))).map Prod.fst).Nodup) := by
  refine ⟨truncateBy_sorted (sortDesc_sorted _) n, ?_,
    truncateBy_sorted (sortDesc_sorted _) n,
    truncateBy_sorted (sortDesc_sorted _) n,
    filter_sortDesc _ s, filter_sortDesc _ s, filter_sortDesc _ s,
    filter_sortDesc _ s, ?_, ?_⟩
  · unfold get_all_items_fallback_from_db
    cases env.liveDb with
    | notConfigured => exact truncateBy_sorted (sortDesc_sorted _) n
    | failing => exact truncateBy_sorted (sortDesc_sorted _) n
    | table rows2 =>
      by_cases h : liveRows rows2 restrict = []
      · simp only [h, if_pos rfl]
        exact truncateBy_sorted (sortDesc_sorted _) n
      · simp only [if_neg h]
        exact truncateBy_sorted (sortDesc_sorted _) n
  · intro hnd
    refine ⟨?_, ?_, ?_⟩
    · exact nodup_truncate_sort
        (by rw [show (fallbackScored env restrict).map Prod.fst =
              _candidates env restrict from posScore_map_fst fbScore _]
            exact hnd) n
    · exact nodup_truncate_sort
        (by rw [show (topnScored env m user restrict).map Prod.fst =
              (_candidates env restrict).filter _ from scoreMap_map_fst _ _ _]
            exact hnd.filter _) n
    · exact nodup_truncate_sort
        (by rw [show (pseudoScored env m pu exclude restrict).map Prod.fst =
              (_candidates env restrict).filter _ from scoreMap_map_fst _ _ _]
            exact hnd.filter _) n
  · intro hnd
    exact nodup_truncate_sort
      (by rw [show (dbScored rows).map Prod.fst = rows.map (fun r => r.1) from
            posScore_map_fst dbScore _]
          exact hnd) n

/-- C3 witness: instantiation at duplicate-free candidate lists. -/
theorem C3_ranking_invariants_witness :
    ((get_all_items_fallback envA none 10).map Prod.fst).Nodup ∧
    ((truncateBy 10 (sortDesc (dbScored [("a", 1), ("b", 2)]))).map
      Prod.fst).Nodup := by
  have h := C3_ranking_invariants envA mA "u" [1] [] none
    [("a", 1), ("b", 2)] 10 1
  exact ⟨(h.2.2.2.2.2.2.2.2.1 (by decide)).1, h.2.2.2.2.2.2.2.2.2 (by decide)⟩

/-- C5: the cold-start scorer gives every candidate that is known to the
model and not excluded the score global_mean + item bias + dot(item latent
vector, pseudo-user vector) — no user-bias term — and returns them sorted
descending with stable tie-break by candidate order. -/
theorem C5_cold_start_score (env : Env) (m : Model) (pu : List Score)
    (exclude : List ItemId) (restrict : Option (List CatId)) (n : Int) :
    (∀ iid s, (iid, s) ∈ score_items_for_pseudo_user env m pu exclude restrict n →
      knownIn m iid = true ∧ iid ∉ exclude ∧
      s = m.globalMean + m.bi iid + dot (m.qi iid) pu)
    ∧ (1000 ≤ n → ∀ iid ∈ _candidates env restrict,
        knownIn m iid = true → iid ∉ exclude →
        (iid, m.globalMean + m.bi iid + dot (m.qi iid) pu) ∈
          score_items_for_pseudo_user env m pu exclude restrict n)
    ∧ List.Sorted descR (score_items_for_pseudo_user env m pu exclude restrict n)
    ∧ ∀ s, (sortDesc (pseudoScored env m pu exclude restrict)).filter
          (fun p => decide (p.2 = s)) =
        (pseudoScored env m pu exclude restrict).filter
          (fun p => decide (p.2 = s)) := by
  refine ⟨?_, ?_, truncateBy_sorted (sortDesc_sorted _) n,
    fun s => filter_sortDesc _ s⟩
  · intro iid s hmem
    have h1 : (iid, s) ∈ sortDesc (pseudoScored env m pu exclude restrict) :=
      (truncateBy_sublist n _).subset hmem
    have h2 : (iid, s) ∈ pseudoScored env m pu exclude restrict :=
      (sortDesc_perm _).subset h1
    rcases scoreMap_mem h2 with ⟨_, hskip, hs⟩
    rcases Bool.or_eq_false_iff.mp hskip with ⟨h4, h5⟩
    refine ⟨by simpa using h5, ?_, hs⟩
    intro hin
    simp [hin] at h4
  · intro hn iid hc hkn hex
    have hskip : (decide (iid ∈ exclude) || !knownIn m iid) = false := by
      simp [hex, hkn]
    have h1 : (iid, m.globalMean + m.bi iid + dot (m.qi iid) pu) ∈
        pseudoScored env m pu exclude restrict :=
      scoreMap_mem_of hc hskip
    have h2 : score_items_for_pseudo_user env m pu exclude restrict n =
        sortDesc (pseudoScored env m pu exclude restrict) := by
      unfold score_items_for_pseudo_user
      exact truncateBy_of_ge hn _
    rw [h2]
    exact ((sortDesc_perm _).mem_iff).mpr h1

/-- C5 witness: under `envA` the known item a receives the cold-start
score 3 + 0 + 1 = 4 and appears in the result. -/
theorem C5_cold_start_score_witness :
    (mA.globalMean + mA.bi "a" + dot (mA.qi "a") [1] = 4) ∧
    ("a", mA.globalMean + mA.bi "a" + dot (mA.qi "a") [1]) ∈
      score_items_for_pseudo_user envA mA [1] [] (some [1]) 1000 := by
  have h := C5_cold_start_score envA mA [1] [] (some [1]) 1000
  exact ⟨by decide, h.2.1 (by decide) "a" (by decide) (by decide) (by decide)⟩

theorem getD_eq_get {l : List Score} {j : Nat} (h : j < l.length) :
    l.getD j 0 = l.get ⟨j, h⟩ := by
  rw [List.getD_eq_getElem?_getD, List.getElem?_eq_getElem h]
  rfl

theorem zipWith_add_getD {a b : List Score} {j : Nat} (ha : j < a.length)
    (hb : j < b.length) :
    (List.zipWith (· + ·) a b).getD j 0 = a.getD j 0 + b.getD j 0 := by
  induction a generalizing b j with
  | nil => simp at ha
  | cons x xs ih =>
    cases b with
    | nil => simp at hb
    | cons y ys =>
      cases j with
      | zero => simp
      | succ i =>
        simp only [List.zipWith_cons_cons, List.getD_cons_succ]
        exact ih (by simpa using ha) (by simpa using hb)

theorem vecSum_length {vs : List (List Score)} {d : Nat}
    (hd : ∀ v ∈ vs, v.length = d) (hne : vs ≠ []) :
    (vecSum vs).length = d := by
  induction vs with
  | nil => cases hne rfl
  | cons v t ih =>
    cases t with
    | nil => exact hd v (by simp)
    | cons w u =>
      have e : vecSum (v :: w :: u) = List.zipWith (· + ·) v (vecSum (w :: u)) :=
        rfl
      rw [e, List.length_zipWith,
        ih (fun x hx => hd x (List.mem_cons_of_mem v hx)) (by simp),
        hd v (by simp)]
      exact Nat.min_self d

theorem vecSum_getD {vs : List (List Score)} {d j : Nat}
    (hd : ∀ v ∈ vs, v.length = d) (hj : j < d) :
    (vecSum vs).getD j 0 = (vs.map (fun v => v.getD j 0)).sum := by
  induction vs with
  | nil => simp [vecSum]
  | cons v t ih =>
    cases t with
    | nil => simp [vecSum]
    | cons w u =>
      have e : vecSum (v :: w :: u) = List.zipWith (· + ·) v (vecSum (w :: u)) :=
        rfl
      have hv : j < v.length := by rw [hd v (by simp)]; exact hj
      have hrest : (vecSum (w :: u)).length = d :=
        vecSum_length (fun x hx => hd x (List.mem_cons_of_mem v hx)) (by simp)
      have hs : j < (vecSum (w :: u)).length := by rw [hrest]; exact hj
      rw [e, zipWith_add_getD hv hs,
        ih (fun x hx => hd x (List.mem_cons_of_mem v hx))]
      simp

theorem vecMean_length {vs : List (List Score)} {d : Nat}
    (hd : ∀ v ∈ vs, v.length = d) (hne : vs ≠ []) :
    (vecMean vs).length = d := by
  unfold vecMean
  rw [List.length_map]
  exact vecSum_length hd hne

theorem vecMean_getD {vs : List (List Score)} {d j : Nat}
    (hd : ∀ v ∈ vs, v.length = d) (hne : vs ≠ []) (hj : j < d) :
    (vecMean vs).getD j 0 =
      (vs.map (fun v => v.getD j 0)).sum / (vs.length : Score) := by
  have hlen : (vecSum vs).length = d := vecSum_length hd hne
  have hjl : j < (vecSum vs).length := by rw [hlen]; exact hj
  have hjm : j < (vecMean vs).length := by
    rw [vecMean_length hd hne]; exact hj
  rw [getD_eq_get hjm]
  unfold vecMean
  simp only [List.get_eq_getElem, List.getElem_map]
  congr 1
  rw [← vecSum_getD hd hj, getD_eq_get hjl]
  simp [List.get_eq_getElem]

/-- C4: the pseudo-user vector is absent exactly when no model-known item
lies in the selected categories (in particular when the selection is
empty), and otherwise is, component by component, the arithmetic mean of
the latent vectors of the model-known items in those categories. -/
theorem C4_pseudo_mean (m : Model) (cats : List CatId) (d : Nat)
    (hd : ∀ iid ∈ knownCatItems m cats, (m.qi iid).length = d) :
    (pseudo_user_vector_from_categories m cats = none ↔
      knownCatItems m cats = [])
    ∧ (cats = [] → pseudo_user_vector_from_categories m cats = none)
    ∧ (∀ v, pseudo_user_vector_from_categories m cats = some v →
        v.length = d ∧
        ∀ j, j < d →
          v.getD j 0 =
            ((knownCatItems m cats).map (fun iid => (m.qi iid).getD j 0)).sum /
              ((knownCatItems m cats).length : Score)) := by
  have hmap : ∀ w ∈ (knownCatItems m cats).map m.qi, w.length = d := by
    intro w hw
    rcases List.mem_map.mp hw with ⟨iid, hiid, rfl⟩
    exact hd iid hiid
  refine ⟨?_, ?_, ?_⟩
  · unfold pseudo_user_vector_from_categories
    constructor
    · intro h
      by_cases he : (knownCatItems m cats).map m.qi = []
      · exact List.map_eq_nil_iff.mp he
      · simp [he] at h
    · intro h
      simp [h]
  · intro h
    have he : knownCatItems m cats = [] := by
      unfold knownCatItems
      simp [h]
    unfold pseudo_user_vector_from_categories
    simp [he]
  · intro v hv
    unfold pseudo_user_vector_from_categories at hv
    by_cases he : (knownCatItems m cats).map m.qi = []
    · simp [he] at hv
    · have hv2 : some (vecMean ((knownCatItems m cats).map m.qi)) = some v := by
        simpa [he] using hv
      have hvv : v = vecMean ((knownCatItems m cats).map m.qi) :=
        (Option.some.inj hv2).symm
      subst hvv
      refine ⟨vecMean_length hmap he, ?_⟩
      intro j hj
      rw [vecMean_getD hmap he hj, List.map_map, List.length_map]
      rfl

/-- C4 witness: for categories {1} under model `mC4` the pseudo-vector is
the mean [2, 4] of [1, 3] and [3, 5], matching the component formula. -/
theorem C4_pseudo_mean_witness :
    pseudo_user_vector_from_categories mC4 [1] = some [2, 4] ∧
    ([2, 4] : List Score).getD 0 0 =
      ((knownCatItems mC4 [1]).map (fun iid => (mC4.qi iid).getD 0 0)).sum /
        ((knownCatItems mC4 [1]).length : Score) := by
  have h := C4_pseudo_mean mC4 [1] 2 (by decide)
  exact ⟨by decide, (h.2.2 [2, 4] (by decide)).2 0 (by decide)⟩

/-- C6 counterexample: with the requested count at the return-all
threshold the cold-start path omits the available candidate b, which is
unknown to the model, so the full ranked set does not contain every
available candidate. -/
theorem C6_return_all_cex :
    "b" ∈ _candidates envC6 (some [1]) ∧
    "b" ∉ (recommend envC6 none (some [1]) 1000 3).map Prod.fst := by decide

/-- C6 (amended): a requested count n with 0 ≤ n < 1000 yields the first n
entries of the full ranking and n ≥ 1000 yields the untruncated full
ranking, on every path of recommend; the full fallback rankings carry
every candidate — each exactly once when the candidate list is
duplicate-free — while the model-based scorers carry exactly the known,
non-excluded candidates. -/
theorem C6_truncation_and_coverage (env : Env) (m : Model) (user : String)
    (pu : List Score) (exclude : List ItemId) (restrict : Option (List CatId))
    (rows : List (ItemId × CatId)) (user? : Option String)
    (cats? : Option (List CatId)) (k : Nat) (n : Int) :
    (0 ≤ n → n < 1000 →
      recommend env user? cats? n k =
        (recommend env user? cats? 1000 k).take n.toNat)
    ∧ (1000 ≤ n →
      recommend env user? cats? n k = recommend env user? cats? 1000 k)
    ∧ List.Perm ((get_all_items_fallback env restrict 1000).map Prod.fst)
        (_candidates env restrict)
    ∧ ((_candidates env restrict).Nodup →
        ∀ iid ∈ _candidates env restrict,
          ((get_all_items_fallback env restrict 1000).map Prod.fst).count iid = 1)
    ∧ List.Perm ((truncateBy 1000 (sortDesc (dbScored rows))).map Prod.fst)
        (rows.map (fun r => r.1))
    ∧ List.Perm ((topn_for_user env m user 1000 restrict).map Prod.fst)
        ((_candidates env restrict).filter
          (fun iid => !(decide (iid ∈ takenItems env user) || !knownIn m iid)))
    ∧ List.Perm
        ((score_items_for_pseudo_user env m pu exclude restrict 1000).map
          Prod.fst)
        ((_candidates env restrict).filter
          (fun iid => !(decide (iid ∈ exclude) || !knownIn m iid))) := by
  have hfb : List.Perm ((get_all_items_fallback env restrict 1000).map Prod.fst)
      (_candidates env restrict) := by
    have e : get_all_items_fallback env restrict 1000 =
        sortDesc (fallbackScored env restrict) := by
      unfold get_all_items_fallback
      exact truncateBy_of_ge (le_refl _) _
    rw [e]
    have hp := (sortDesc_perm (fallbackScored env restrict)).map Prod.fst
    have he : (fallbackScored env restrict).map Prod.fst =
        _candidates env restrict := posScore_map_fst fbScore _
    exact he ▸ hp
  refine ⟨?_, ?_, hfb, ?_, ?_, ?_, ?_⟩
  · intro h0 h1
    rw [recommend_as_trunc env user? cats? n k, truncateBy_of_nonneg_lt h0 h1]
  · intro hn
    rw [recommend_as_trunc env user? cats? n k, truncateBy_of_ge hn]
  · intro hnd iid hiid
    rw [hfb.count_eq]
    exact List.count_eq_one_of_mem hnd hiid
  · have e : truncateBy (1000 : Int) (sortDesc (dbScored rows)) =
        sortDesc (dbScored rows) := truncateBy_of_ge (le_refl _) _
    rw [e]
    have hp := (sortDesc_perm (dbScored rows)).map Prod.fst
    have he : (dbScored rows).map Prod.fst = rows.map (fun r => r.1) :=
      posScore_map_fst dbScore _
    exact he ▸ hp
  · have e : topn_for_user env m user 1000 restrict =
        sortDesc (topnScored env m user restrict) := by
      unfold topn_for_user
      exact truncateBy_of_ge (le_refl _) _
    rw [e]
    have hp := (sortDesc_perm (topnScored env m user restrict)).map Prod.fst
    have he : (topnScored env m user restrict).map Prod.fst =
        (_candidates env restrict).filter
          (fun iid => !(decide (iid ∈ takenItems env user) || !knownIn m iid)) :=
      scoreMap_map_fst _ _ _
    exact he ▸ hp
  · have e : score_items_for_pseudo_user env m pu exclude restrict 1000 =
        sortDesc (pseudoScored env m pu exclude restrict) := by
      unfold score_items_for_pseudo_user
      exact truncateBy_of_ge (le_refl _) _
    rw [e]
    have hp := (sortDesc_perm (pseudoScored env m pu exclude restrict)).map
      Prod.fst
    have he : (pseudoScored env m pu exclude restrict).map Prod.fst =
        (_candidates env restrict).filter
          (fun iid => !(decide (iid ∈ exclude) || !knownIn m iid)) :=
      scoreMap_map_fst _ _ _
    exact he ▸ hp

/-- C6 witness: a small count takes a prefix of the full ranking, and the
fallback full ranking under `envA` carries candidate a exactly once. -/
theorem C6_truncation_and_coverage_witness :
    recommend envC6 none (some [1]) 1 3 =
      (recommend envC6 none (some [1]) 1000 3).take (1 : Int).toNat ∧
    ((get_all_items_fallback envA none 1000).map Prod.fst).count "a" = 1 := by
  have h := C6_truncation_and_coverage envC6 mC6 "u" [1] [] (some [1]) []
    none (some [1]) 3 1
  have h2 := C6_truncation_and_coverage envA mA "u" [1] [] none []
    none none 3 1
  exact ⟨h.1 (by decide) (by decide), h2.2.2.2.1 (by decide) "a" (by decide)⟩

/-- In a non-increasing ranking every entry scoring at least 1 precedes
every entry scoring below 1. -/
theorem sorted_one_before {xs : List (ItemId × Score)}
    (hs : List.Sorted descR xs) (p q : Fin xs.length)
    (hp : 1 ≤ (xs.get p).2) (hq : (xs.get q).2 < 1) : p < q := by
  by_contra hcon
  push_neg at hcon
  rcases eq_or_lt_of_le hcon with heq | hlt
  · rw [heq] at hq
    linarith
  · have := sorted_scores_get hs hlt
    linarith

/-- The sorted output differs from the candidate-ordered scored list as
soon as some earlier candidate scores strictly below a later one. -/
theorem sortDesc_ne_of_lt {xs : List (ItemId × Score)} {p q : Fin xs.length}
    (hpq : p < q) (h : (xs.get p).2 < (xs.get q).2) :
    sortDesc xs ≠ xs := by
  intro he
  have hs : List.Sorted descR xs := by rw [← he]; exact sortDesc_sorted xs
  have := sorted_scores_get hs hpq
  linarith

/-- C10: the fallback positional scores are not monotone in candidate
position — indices 91 to 99 score 10 - i/10 < 1 while indices at or past
100 score the floor 1 (181 to 199 versus 200 with step 1/20 in the
database variant) — so in the sorted output every floor-scored entry
precedes every sub-floor entry, and for candidate lists longer than the
cutoff the output order does not preserve the candidate order. -/
theorem C10_fallback_nonmonotone (env : Env) (restrict : Option (List CatId))
    (rows : List (ItemId × CatId)) (i : Nat) :
    ((91 ≤ i ∧ i ≤ 99) → fbScore i = 10 - (i : Score) / 10 ∧ fbScore i < 1)
    ∧ (100 ≤ i → fbScore i = 1)
    ∧ ((181 ≤ i ∧ i ≤ 199) → dbScore i = 10 - (i : Score) / 20 ∧ dbScore i < 1)
    ∧ (200 ≤ i → dbScore i = 1)
    ∧ (∀ p q : Fin (sortDesc (fallbackScored env restrict)).length,
        1 ≤ ((sortDesc (fallbackScored env restrict)).get p).2 →
        ((sortDesc (fallbackScored env restrict)).get q).2 < 1 → p < q)
    ∧ (101 ≤ (_candidates env restrict).length →
        sortDesc (fallbackScored env restrict) ≠ fallbackScored env restrict)
    ∧ (∀ p q : Fin (sortDesc (dbScored rows)).length,
        1 ≤ ((sortDesc (dbScored rows)).get p).2 →
        ((sortDesc (dbScored rows)).get q).2 < 1 → p < q)
    ∧ (201 ≤ rows.length → sortDesc (dbScored rows) ≠ dbScored rows) := by
  refine ⟨?_, ?_, ?_, ?_, ?_, ?_, ?_, ?_⟩
  · rintro ⟨h1, h2⟩
    have hi : (91 : Score) ≤ (i : Score) := by exact_mod_cast h1
    constructor
    · unfold fbScore
      rw [if_pos (by omega)]
      rw [mul_one_div]
    · unfold fbScore
      rw [if_pos (by omega), mul_one_div]
      linarith
  · intro h
    unfold fbScore
    rw [if_neg (by omega)]
  · rintro ⟨h1, h2⟩
    have hi : (181 : Score) ≤ (i : Score) := by exact_mod_cast h1
    constructor
    · unfold dbScore
      rw [if_pos (by omega)]
      rw [mul_one_div]
    · unfold dbScore
      rw [if_pos (by omega), mul_one_div]
      linarith
  · intro h
    unfold dbScore
    rw [if_neg (by omega)]
  · intro p q hp hq
    exact sorted_one_before (sortDesc_sorted _) p q hp hq
  · intro hlen
    have hl : (fallbackScored env restrict).length =
        (_candidates env restrict).length := posScore_length fbScore _
    have h99 : 99 < (fallbackScored env restrict).length := by rw [hl]; omega
    have h100 : 100 < (fallbackScored env restrict).length := by rw [hl]; omega
    have g99 : (fallbackScored env restrict).get ⟨99, h99⟩ =
        ((_candidates env restrict).get ⟨99, by omega⟩, fbScore 99) :=
      posScore_get fbScore _ 99 h99 (by omega)
    have g100 : (fallbackScored env restrict).get ⟨100, h100⟩ =
        ((_candidates env restrict).get ⟨100, by omega⟩, fbScore 100) :=
      posScore_get fbScore _ 100 h100 (by omega)
    refine sortDesc_ne_of_lt (p := ⟨99, h99⟩) (q := ⟨100, h100⟩)
      (by simp [Fin.lt_def]) ?_
    rw [g99, g100]
    show fbScore 99 < fbScore 100
    decide
  · intro p q hp hq
    exact sorted_one_before (sortDesc_sorted _) p q hp hq
  · intro hlen
    have hl : (dbScored rows).length = rows.length := by
      unfold dbScored
      rw [posScore_length, List.length_map]
    have h199 : 199 < (dbScored rows).length := by rw [hl]; omega
    have h200 : 200 < (dbScored rows).length := by rw [hl]; omega
    have hm : 199 < (rows.map (fun r => r.1)).length := by
      rw [List.length_map]; omega
    have hm2 : 200 < (rows.map (fun r => r.1)).length := by
      rw [List.length_map]; omega
    have g199 : (dbScored rows).get ⟨199, h199⟩ =
        ((rows.map (fun r => r.1)).get ⟨199, hm⟩, dbScore 199) :=
      posScore_get dbScore _ 199 h199 hm
    have g200 : (dbScored rows).get ⟨200, h200⟩ =
        ((rows.map (fun r => r.1)).get ⟨200, hm2⟩, dbScore 200) :=
      posScore_get dbScore _ 200 h200 hm2
    refine sortDesc_ne_of_lt (p := ⟨199, h199⟩) (q := ⟨200, h200⟩)
      (by simp [Fin.lt_def]) ?_
    rw [g199, g200]
    show dbScore 199 < dbScore 200
    decide

/-- C10 witness: index 95 scores 0.5 below the floor, and a 101-candidate
state has a sorted fallback output differing from candidate order. -/
theorem C10_fallback_nonmonotone_witness :
    fbScore 95 = 10 - (95 : Score) / 10 ∧ fbScore 95 < 1 ∧
    sortDesc (fallbackScored envBig none) ≠ fallbackScored envBig none := by
  have h := C10_fallback_nonmonotone envBig none [] 95
  exact ⟨(h.1 (by omega)).1, (h.1 (by omega)).2,
    h.2.2.2.2.2.1 (by decide)⟩

/-- C8 witness: instantiation at `envC8` with requested count -1. -/
theorem C8_negative_count_witness :
    recommend envC8 none none (-1) 3 =
      (recommend envC8 none none 1000 3).take
        ((recommend envC8 none none 1000 3).length -
          min (recommend envC8 none none 1000 3).length (-(-1 : Int)).toNat) :=
  C8_negative_count envC8 none none 3 (-1) (by decide)

end SwissRec
